import Mathlib

/-!
# Temp-Roles bot: registration table, command handler, reaction seeder,
# reaction handler and expiry task

A shallow embedding of `main.go`.  The three package-level maps are threaded
explicitly as a `Maps` value, every call into the Discord client library is an
oracle field of `Session` together with an entry of the returned trace
(`List Effect`), and the goroutine forked by `messageReactionAdd` is the
record of the variables its closure captures (`ExpiryTask`) plus the function
`expiryTask` that runs its body.

Go's `int` is taken to be 64 bits wide (the `amd64`/`arm64` targets), like
`int64` and `time.Duration`.
-/

namespace TempRoles

/-! ## Data model -/

/-- Go `error` value: `none` is `nil`, `some e` is a non-nil error printing as `e`. -/
abbrev GoError := Option String

/-- The `discordgo` option types that `handleTempRolesCommand` does not look at. -/
inductive OtherOptionType
  | SubCommand
  | SubCommandGroup
  | Boolean
  | User
  | Channel
  | Mentionable
  | Number
  | Attachment
  deriving DecidableEq, Repr

/-- One element of `i.ApplicationCommandData().Options`, split by its `Type` field.
The payload is what the accessor used by the handler reads: the role reference
handed to `RoleValue`, the result of `StringValue()`, the result of `IntValue()`. -/
inductive CommandOption
  | ApplicationCommandOptionRole (value : String)
  | ApplicationCommandOptionString (value : String)
  | ApplicationCommandOptionInteger (value : Int)
  | other (t : OtherOptionType)
  deriving DecidableEq, Repr

/-- The fields of `*discordgo.InteractionCreate` that the command handler reads. -/
structure InteractionCreate where
  GuildID : String
  ChannelID : String
  Options : List CommandOption
  deriving DecidableEq, Repr

/-- The fields of `*discordgo.MessageReactionAdd` that the reaction handler reads
(`EmojiName` is `r.Emoji.Name`). -/
structure MessageReactionAdd where
  UserID : String
  MessageID : String
  ChannelID : String
  EmojiName : String
  deriving DecidableEq, Repr

/-- The answers of the Discord client library (`*discordgo.Session`) to the calls the
program makes.  `RoleValue ref guildID` is the `ID` of the role returned by
`option.RoleValue(s, guildID)`, `none` when that is `nil`; `Channel` is
`s.State.Channel` and yields the channel's `GuildID`; `ChannelMessage` yields the
message's `Content`. -/
structure Session where
  RoleValue : String → String → Option String
  ChannelMessage : String → String → Except String String
  MessageReactionAdd : String → String → String → GoError
  Channel : String → Except String String
  GuildMemberRoleAdd : String → String → String → GoError
  GuildMemberRoleRemove : String → String → String → GoError

/-- The variables captured by the closure of the `go func() { ... }()` statement. -/
structure ExpiryTask where
  duration : Int
  guildID : String
  userID : String
  roleID : String
  deriving DecidableEq, Repr

/-- Observable actions, in program order: standard output lines and calls into the
client library.  `Go t` is the fork of the expiry goroutine with captured variables `t`. -/
inductive Effect
  | Println (args : List String)
  | InteractionRespond (content : String)
  | MessageReactionAdd (channelID messageID emoji : String)
  | GuildMemberRoleAdd (guildID userID roleID : String)
  | GuildMemberRoleRemove (guildID userID roleID : String)
  | Sleep (d : Int)
  | Go (t : ExpiryTask)
  deriving DecidableEq, Repr

/-- The package-level variables `messageIDToRole`, `messageIDToContent` and
`messageIDToDuration`; a Go map is its lookup function, `none` for an absent key. -/
structure Maps where
  messageIDToRole : String → Option (List String)
  messageIDToContent : String → Option String
  messageIDToDuration : String → Option Int

/-- The three maps right after `make(map[...])`. -/
def Maps.empty : Maps :=
  { messageIDToRole := fun _ => none
    messageIDToContent := fun _ => none
    messageIDToDuration := fun _ => none }

/-- The Go statement `m[k] = v`. -/
def mapSet {α : Type} (m : String → Option α) (k : String) (v : α) : String → Option α :=
  fun k' => if k' = k then some v else m k'

/-! ## Machine integers and `time` constants -/

/-- Conversion to a 64-bit signed integer (two's complement wrap-around). -/
def int64 (x : Int) : Int :=
  (x + 2 ^ 63) % 2 ^ 64 - 2 ^ 63

def Nanosecond : Int := 1

def Microsecond : Int := 1000 * Nanosecond

def Millisecond : Int := 1000 * Microsecond

def Second : Int := 1000 * Millisecond

def Minute : Int := 60 * Second

def Hour : Int := 60 * Minute

/-- The expression `time.Duration(duration) * time.Hour`, in `int64` arithmetic. -/
def sleepDuration (duration : Int) : Int :=
  int64 (int64 duration * Hour)

/-! ## Command handler -/

/-- The `for _, option := range options` loop of `handleTempRolesCommand`, started
with the current values of `roleIDs`, `messageID` and `duration`.  `none` is the
early `return` taken when a role does not resolve. -/
def scanOptions (s : Session) (guildID : String) :
    List CommandOption → List String → String → Int → Option (List String × String × Int)
  | [], roleIDs, messageID, duration => some (roleIDs, messageID, duration)
  | .ApplicationCommandOptionRole ref :: rest, roleIDs, messageID, duration =>
      match s.RoleValue ref guildID with
      | none => none
      | some id => scanOptions s guildID rest (roleIDs ++ [id]) messageID duration
  | .ApplicationCommandOptionString v :: rest, roleIDs, _, duration =>
      scanOptions s guildID rest roleIDs v duration
  | .ApplicationCommandOptionInteger v :: rest, roleIDs, messageID, _ =>
      scanOptions s guildID rest roleIDs messageID (int64 v)
  | .other _ :: rest, roleIDs, messageID, duration =>
      scanOptions s guildID rest roleIDs messageID duration

/-- The literal `emojis` of `handleMessage`. -/
def emojis : List String := ["1️⃣", "2️⃣", "3️⃣", "4️⃣", "5️⃣"]

/-- The `for k := range roleIDs` loop of `handleMessage`, from index `k` on, over the
elements of `roleIDs` not yet visited. -/
def handleMessageLoop (s : Session) (channelID messageID : String) :
    Nat → List String → List Effect
  | _, [] => []
  | k, _ :: rest =>
      (if h : k < emojis.length then
        Effect.MessageReactionAdd channelID messageID emojis[k] ::
          (match s.MessageReactionAdd channelID messageID emojis[k] with
           | some err => [Effect.Println ["Error adding reaction:", err]]
           | none => [])
       else [])
      ++ handleMessageLoop s channelID messageID (k + 1) rest

/-- The function `handleMessage`. -/
def handleMessage (s : Session) (i : InteractionCreate) (messageID : String)
    (roleIDs : List String) : List Effect :=
  handleMessageLoop s i.ChannelID messageID 0 roleIDs

/-- The function `handleTempRolesCommand`: the maps after the call and its trace. -/
def handleTempRolesCommand (s : Session) (m : Maps) (i : InteractionCreate) :
    Maps × List Effect :=
  let options := i.Options
  if options.length < 3 then
    (m, [Effect.InteractionRespond
      "Usage: /temproles role1 message_id duration [role2] [role3] [role4] [role5]"])
  else
    let guildID := i.GuildID
    match scanOptions s guildID options [] "" 0 with
    | none =>
        (m, [Effect.Println ["Error fetching role"],
             Effect.InteractionRespond "Error fetching role"])
    | some (roleIDs, messageID, duration) =>
        if messageID = "" ∨ duration ≤ 0 then
          (m, [Effect.InteractionRespond "Message ID and duration are required"])
        else
          match s.ChannelMessage i.ChannelID messageID with
          | .error err =>
              (m, [Effect.Println ["Error fetching message:", err],
                   Effect.InteractionRespond "Error fetching message content"])
          | .ok content =>
              ({ messageIDToRole := mapSet m.messageIDToRole messageID roleIDs
                 messageIDToContent := mapSet m.messageIDToContent messageID content
                 messageIDToDuration := mapSet m.messageIDToDuration messageID duration },
               handleMessage s i messageID roleIDs ++
                 [Effect.InteractionRespond
                   "Reactions added. Users can now react to get temporary roles."])

/-! ## Reaction handler and expiry task -/

/-- The `switch r.Emoji.Name` statement of `messageReactionAdd`: the value of `roleID`
after it, `none` for the `default` case (which returns). -/
def switchEmoji (name : String) (roleIDs : List String) : Option String :=
  if name = "1️⃣" then
    some (if h : roleIDs.length ≥ 1 then roleIDs[0] else "")
  else if name = "2️⃣" then
    some (if h : roleIDs.length ≥ 2 then roleIDs[1] else "")
  else if name = "3️⃣" then
    some (if h : roleIDs.length ≥ 3 then roleIDs[2] else "")
  else if name = "4️⃣" then
    some (if h : roleIDs.length ≥ 4 then roleIDs[3] else "")
  else if name = "5️⃣" then
    some (if h : roleIDs.length ≥ 5 then roleIDs[4] else "")
  else
    none

/-- The function `messageReactionAdd`: the maps after the call and its trace. -/
def messageReactionAdd (s : Session) (m : Maps) (r : MessageReactionAdd) :
    Maps × List Effect :=
  let messageID := r.MessageID
  let t0 := [Effect.Println
    ["Reaction added by user:", r.UserID, "Emoji:", r.EmojiName, "MessageID:", messageID]]
  match m.messageIDToRole messageID with
  | none => (m, t0 ++ [Effect.Println ["Message ID not found in map:", messageID]])
  | some roleIDs =>
      let dl : Int × List Effect :=
        match m.messageIDToDuration messageID with
        | some d => (d, [])
        | none => (1, [Effect.Println ["Duration not found for message ID:", messageID]])
      let duration := dl.1
      let t1 := t0 ++ dl.2 ++ [Effect.Println ["Message content for message ID:", messageID]]
      match switchEmoji r.EmojiName roleIDs with
      | none => (m, t1 ++ [Effect.Println ["Unknown emoji:", r.EmojiName]])
      | some roleID =>
          if roleID = "" then
            (m, t1 ++ [Effect.Println ["Role ID not found for emoji:", r.EmojiName]])
          else
            match s.Channel r.ChannelID with
            | .error err => (m, t1 ++ [Effect.Println ["Error fetching channel:", err]])
            | .ok guildID =>
                let t2 := t1 ++
                  [Effect.Println
                    ["Adding role:", roleID, "to user:", r.UserID, "in guild:", guildID],
                   Effect.GuildMemberRoleAdd guildID r.UserID roleID]
                match s.GuildMemberRoleAdd guildID r.UserID roleID with
                | some err => (m, t2 ++ [Effect.Println ["Error adding role:", err]])
                | none =>
                    (m, t2 ++
                      [Effect.Println
                        ["Role added. Will remove after", toString duration, "hours"],
                       Effect.Go
                         { duration := duration, guildID := guildID,
                           userID := r.UserID, roleID := roleID }])

/-- The body of the goroutine forked by `messageReactionAdd`, run against the
session `s` it finds when it executes. -/
def expiryTask (s : Session) (t : ExpiryTask) : List Effect :=
  [Effect.Sleep (sleepDuration t.duration),
   Effect.GuildMemberRoleRemove t.guildID t.userID t.roleID]
  ++ (match s.GuildMemberRoleRemove t.guildID t.userID t.roleID with
      | some err => [Effect.Println ["Error removing role:", err]]
      | none => [])
  ++ [Effect.Println ["Role removed:", t.roleID, "from user:", t.userID]]

/-- How long `time.Sleep d` suspends at least: a negative or zero `d` returns at once. -/
def sleepTime (d : Int) : Int :=
  if d ≤ 0 then 0 else d

/-! ## Traces and runs -/

/-- The reaction-attach calls of a trace, as `(channel, message, emoji)`. -/
def reactionAdds (tr : List Effect) : List (String × String × String) :=
  tr.filterMap fun e =>
    match e with
    | .MessageReactionAdd c m e => some (c, m, e)
    | _ => none

/-- The role-add calls of a trace, as `(guild, user, role)`. -/
def roleAdds (tr : List Effect) : List (String × String × String) :=
  tr.filterMap fun e =>
    match e with
    | .GuildMemberRoleAdd g u r => some (g, u, r)
    | _ => none

/-- The role-remove calls of a trace, as `(guild, user, role)`. -/
def roleRemoves (tr : List Effect) : List (String × String × String) :=
  tr.filterMap fun e =>
    match e with
    | .GuildMemberRoleRemove g u r => some (g, u, r)
    | _ => none

/-- The goroutines forked in a trace. -/
def forks (tr : List Effect) : List ExpiryTask :=
  tr.filterMap fun e =>
    match e with
    | .Go t => some t
    | _ => none

/-- The texts sent with `InteractionRespond` in a trace. -/
def responses (tr : List Effect) : List String :=
  tr.filterMap fun e =>
    match e with
    | .InteractionRespond c => some c
    | _ => none

/-- A trace with its `Println` lines dropped: the calls into the client library, the
sleeps and the forks. -/
def calls (tr : List Effect) : List Effect :=
  tr.filter fun e =>
    match e with
    | .Println _ => false
    | _ => true

/-- One handler invocation as dispatched by the session: a `temproles` command or a
reaction-add event, each with the session answers it meets. -/
inductive Event
  | command (s : Session) (i : InteractionCreate)
  | reaction (s : Session) (r : MessageReactionAdd)

/-- The maps after handling one event. -/
def step (m : Maps) : Event → Maps
  | .command s i => (handleTempRolesCommand s m i).1
  | .reaction s r => (messageReactionAdd s m r).1

/-- The maps after handling a sequence of events, starting from the empty maps. -/
def run (evs : List Event) : Maps :=
  evs.foldl step Maps.empty

/-- The maps after a sequence of `handleTempRolesCommand` calls from the empty maps. -/
def runCommands (cmds : List (Session × InteractionCreate)) : Maps :=
  cmds.foldl (fun m c => (handleTempRolesCommand c.1 m c.2).1) Maps.empty


/-! ## Concrete sessions and invocations -/

/-- A session in which every call succeeds: a role reference resolves to itself, every
message has content `hello`, every channel belongs to guild `G1`. -/
def scenarioSession : Session :=
  { RoleValue := fun ref _ => some ref
    ChannelMessage := fun _ _ => .ok "hello"
    MessageReactionAdd := fun _ _ _ => none
    Channel := fun _ => .ok "G1"
    GuildMemberRoleAdd := fun _ _ _ => none
    GuildMemberRoleRemove := fun _ _ _ => none }

/-- The invocation `/temproles role1:R1 message_id:M1 duration:2 role2:R2` in channel `C1`. -/
def scenarioCommand : InteractionCreate :=
  { GuildID := "G1"
    ChannelID := "C1"
    Options :=
      [.ApplicationCommandOptionRole "R1", .ApplicationCommandOptionString "M1",
       .ApplicationCommandOptionInteger 2, .ApplicationCommandOptionRole "R2"] }

/-- The maps after `scenarioCommand` on the empty maps. -/
def scenarioMaps : Maps :=
  (handleTempRolesCommand scenarioSession Maps.empty scenarioCommand).1

/-- User `U1` reacting with `1️⃣` to message `M1` in channel `C1`. -/
def scenarioReaction : MessageReactionAdd :=
  { UserID := "U1", MessageID := "M1", ChannelID := "C1", EmojiName := "1️⃣" }

/-- The role references of the role-typed options of an invocation, in order. -/
def roleArguments : List CommandOption → List String
  | [] => []
  | .ApplicationCommandOptionRole ref :: rest => ref :: roleArguments rest
  | _ :: rest => roleArguments rest

/-- The text `handleTempRolesCommand` responds with after writing a registration. -/
def confirmationText : String :=
  "Reactions added. Users can now react to get temporary roles."

/-- The texts `handleTempRolesCommand` responds with when it returns early. -/
def errorTexts : List String :=
  ["Usage: /temproles role1 message_id duration [role2] [role3] [role4] [role5]",
   "Error fetching role",
   "Message ID and duration are required",
   "Error fetching message content"]

/-- The maps after a sequence of reaction events handled from the maps `m`. -/
def reactAll (m : Maps) (later : List (Session × MessageReactionAdd)) : Maps :=
  later.foldl (fun m' x => (messageReactionAdd x.1 m' x.2).1) m

/-- An invocation with two options only. -/
def shortCommand : InteractionCreate :=
  { GuildID := "G1"
    ChannelID := "C1"
    Options := [.ApplicationCommandOptionRole "R9", .ApplicationCommandOptionString "M1"] }

/-- The invocation `/temproles role1:R3 message_id:M1 duration:7` in channel `C1`. -/
def secondCommand : InteractionCreate :=
  { GuildID := "G1"
    ChannelID := "C1"
    Options :=
      [.ApplicationCommandOptionRole "R3", .ApplicationCommandOptionString "M1",
       .ApplicationCommandOptionInteger 7] }

/-- An invocation that uses all seven declared parameters. -/
def fullCommand : InteractionCreate :=
  { GuildID := "G1"
    ChannelID := "C1"
    Options :=
      [.ApplicationCommandOptionRole "R1", .ApplicationCommandOptionString "M1",
       .ApplicationCommandOptionInteger 2, .ApplicationCommandOptionRole "R2",
       .ApplicationCommandOptionRole "R3", .ApplicationCommandOptionRole "R4",
       .ApplicationCommandOptionRole "R5"] }

/-- An invocation with three options, none of them a role. -/
def rolelessCommand : InteractionCreate :=
  { GuildID := "G1"
    ChannelID := "C1"
    Options :=
      [.ApplicationCommandOptionString "M1", .ApplicationCommandOptionInteger 2,
       .other .Boolean] }

/-- The invocation `/temproles role1:R1 message_id:M1 duration:2562048` in channel `C1`. -/
def longCommand : InteractionCreate :=
  { GuildID := "G1"
    ChannelID := "C1"
    Options :=
      [.ApplicationCommandOptionRole "R1", .ApplicationCommandOptionString "M1",
       .ApplicationCommandOptionInteger 2562048] }

/-- The maps after `longCommand` on the empty maps. -/
def longMaps : Maps :=
  (handleTempRolesCommand scenarioSession Maps.empty longCommand).1

/-- The three maps have the same keys and every stored duration is positive. -/
def Consistent (m : Maps) : Prop :=
  (∀ k, (m.messageIDToRole k).isSome = (m.messageIDToContent k).isSome ∧
        (m.messageIDToRole k).isSome = (m.messageIDToDuration k).isSome) ∧
  ∀ k d, m.messageIDToDuration k = some d → 0 < d

/-- The event stores no empty role `ID`: for a command, no role argument resolves to a
role whose `ID` is the empty string (`discordgo` returns the role with the `ID` that
Discord sent as the option's value, a non-empty snowflake). -/
def Event.roleIDsNonEmpty : Event → Prop
  | .command s i => ∀ ref, ref ∈ roleArguments i.Options → s.RoleValue ref i.GuildID ≠ some ""
  | .reaction _ _ => True

/-- A session like `scenarioSession` whose attach call for the `j`-th emoji fails exactly
when `fails j` holds. -/
def attachSession (fails : Nat → Bool) : Session :=
  { scenarioSession with
    MessageReactionAdd := fun _ _ e =>
      if fails (emojis.indexOf e) then some "attach failed" else none }

/-! ## Auxiliary lemmas -/

theorem index_or_default (rs : List String) (k : Nat) :
    (if h : rs.length ≥ k + 1 then rs[k] else "") = rs.getD k "" := by
  by_cases h : rs.length ≥ k + 1
  · rw [dif_pos h, List.getD_eq_getElem _ _ (by omega)]
  · rw [dif_neg h, List.getD_eq_default _ _ (by omega)]

/-- The `switch` selects the role at the emoji's index, or the empty string. -/
theorem switchEmoji_index (name : String) (rs : List String) (e : Nat) (h1 : 1 ≤ e)
    (h5 : e ≤ 5) (hn : emojis[e - 1]? = some name) :
    switchEmoji name rs = some (rs.getD (e - 1) "") := by
  interval_cases e <;> simp [emojis] at hn <;> subst hn
  · have := index_or_default rs 0
    simp [switchEmoji] at this ⊢
    exact this
  · have := index_or_default rs 1
    simp [switchEmoji] at this ⊢
    exact this
  · have := index_or_default rs 2
    simp [switchEmoji] at this ⊢
    exact this
  · have := index_or_default rs 3
    simp [switchEmoji] at this ⊢
    exact this
  · have := index_or_default rs 4
    simp [switchEmoji] at this ⊢
    exact this

/-- The `switch` takes its `default` case on every name outside `emojis`. -/
theorem switchEmoji_unknown (name : String) (rs : List String) (hn : name ∉ emojis) :
    switchEmoji name rs = none := by
  simp [emojis] at hn
  simp [switchEmoji, hn]

/-- Whatever the `switch` selects is the role at the index of one of the five emoji,
or the empty string. -/
theorem switchEmoji_some (name : String) (rs : List String) (ρ : String)
    (h : switchEmoji name rs = some ρ) :
    ∃ e, 1 ≤ e ∧ e ≤ 5 ∧ emojis[e - 1]? = some name ∧ ρ = rs.getD (e - 1) "" := by
  by_cases hn : name ∈ emojis
  · obtain ⟨k, hk, hget⟩ := List.getElem_of_mem hn
    have hk5 : k < 5 := by simpa [emojis] using hk
    refine ⟨k + 1, by omega, by omega, ?_, ?_⟩
    · simp [List.getElem?_eq_getElem hk, hget]
    · have := switchEmoji_index name rs (k + 1) (by omega) (by omega)
        (by simp [List.getElem?_eq_getElem hk, hget])
      rw [h] at this
      exact Option.some.inj this
  · rw [switchEmoji_unknown name rs hn] at h
    cases h

/-- The reaction handler never writes the maps. -/
theorem messageReactionAdd_maps (s : Session) (m : Maps) (r : MessageReactionAdd) :
    (messageReactionAdd s m r).1 = m := by
  unfold messageReactionAdd
  simp only
  repeat (first | rfl | split)

/-- The trace of the reaction handler past all its guards. -/
theorem messageReactionAdd_granting (s : Session) (m : Maps) (r : MessageReactionAdd)
    (rs : List String) (ρ g : String)
    (hreg : m.messageIDToRole r.MessageID = some rs)
    (hsw : switchEmoji r.EmojiName rs = some ρ) (hρ : ρ ≠ "")
    (hch : s.Channel r.ChannelID = .ok g) :
    roleAdds (messageReactionAdd s m r).2 = [(g, r.UserID, ρ)] ∧
    forks (messageReactionAdd s m r).2 =
      match s.GuildMemberRoleAdd g r.UserID ρ with
      | none => [{ duration := (m.messageIDToDuration r.MessageID).getD 1, guildID := g,
                   userID := r.UserID, roleID := ρ }]
      | some _ => [] := by
  unfold messageReactionAdd
  simp only [hreg, hsw, hρ, hch, if_false]
  cases hd : m.messageIDToDuration r.MessageID <;>
    cases ha : s.GuildMemberRoleAdd g r.UserID ρ <;>
    simp [roleAdds, forks]

/-- The trace of the reaction handler when one of its guards stops it. -/
theorem messageReactionAdd_ignoring (s : Session) (m : Maps) (r : MessageReactionAdd)
    (h : ∀ rs ρ, m.messageIDToRole r.MessageID = some rs →
      switchEmoji r.EmojiName rs = some ρ → ρ ≠ "" → ∀ g, s.Channel r.ChannelID ≠ .ok g) :
    roleAdds (messageReactionAdd s m r).2 = [] ∧ forks (messageReactionAdd s m r).2 = [] := by
  cases hreg : m.messageIDToRole r.MessageID with
  | none => simp [messageReactionAdd, hreg, roleAdds, forks]
  | some rs =>
    cases hsw : switchEmoji r.EmojiName rs with
    | none =>
      cases hd : m.messageIDToDuration r.MessageID <;>
        simp [messageReactionAdd, hreg, hsw, hd, roleAdds, forks]
    | some ρ =>
      by_cases hρ : ρ = ""
      · cases hd : m.messageIDToDuration r.MessageID <;>
          simp [messageReactionAdd, hreg, hsw, hd, roleAdds, forks, hρ]
      · cases hch : s.Channel r.ChannelID with
        | error err =>
          cases hd : m.messageIDToDuration r.MessageID <;>
            simp [messageReactionAdd, hreg, hsw, hd, hch, roleAdds, forks, hρ]
        | ok g => exact absurd hch (h rs ρ hreg hsw hρ g)


/-- One pass of the seeding loop from index `k` attaches the emoji from position `k` on,
one per remaining role, whatever the attach calls return. -/
theorem reactionAdds_handleMessageLoop (s : Session) (c m : String) (rs : List String)
    (k : Nat) :
    reactionAdds (handleMessageLoop s c m k rs) =
      ((emojis.drop k).take rs.length).map (fun e => (c, m, e)) := by
  induction rs generalizing k with
  | nil => simp [handleMessageLoop, reactionAdds]
  | cons r rest ih =>
    have ih' := ih (k + 1)
    unfold reactionAdds at ih' ⊢
    rw [handleMessageLoop, List.filterMap_append, ih']
    by_cases h : k < emojis.length
    · rw [dif_pos h, List.drop_eq_getElem_cons h, List.length_cons, List.take_succ_cons,
        List.map_cons]
      cases hs : s.MessageReactionAdd c m emojis[k] <;> rfl
    · rw [dif_neg h]
      have h1 : emojis.drop k = [] := List.drop_eq_nil_of_le (by omega)
      have h2 : emojis.drop (k + 1) = [] := List.drop_eq_nil_of_le (by omega)
      simp [h1, h2]

/-- Every pattern of failing and succeeding attach calls is the behaviour of some
session: the five emoji are pairwise distinct. -/
theorem attachSession_pattern (fails : Nat → Bool) (c m : String) (j : Nat) (hj : j < 5) :
    ∃ e, emojis[j]? = some e ∧
      ((attachSession fails).MessageReactionAdd c m e).isSome = fails j := by
  interval_cases j
  · exact ⟨"1️⃣", rfl, by
      have h : emojis.indexOf "1️⃣" = 0 := by decide
      simp only [attachSession, h]
      cases fails 0 <;> rfl⟩
  · exact ⟨"2️⃣", rfl, by
      have h : emojis.indexOf "2️⃣" = 1 := by decide
      simp only [attachSession, h]
      cases fails 1 <;> rfl⟩
  · exact ⟨"3️⃣", rfl, by
      have h : emojis.indexOf "3️⃣" = 2 := by decide
      simp only [attachSession, h]
      cases fails 2 <;> rfl⟩
  · exact ⟨"4️⃣", rfl, by
      have h : emojis.indexOf "4️⃣" = 3 := by decide
      simp only [attachSession, h]
      cases fails 3 <;> rfl⟩
  · exact ⟨"5️⃣", rfl, by
      have h : emojis.indexOf "5️⃣" = 4 := by decide
      simp only [attachSession, h]
      cases fails 4 <;> rfl⟩

/-! ## Reaction seeder -/

/-- C3: for a role list of length `k` with `1 ≤ k ≤ 5`, `handleMessage` makes exactly `k`
reaction-attach calls, all on the given channel and message, and the `j`-th call uses
the `j`-th emoji of the fixed sequence; this holds for every session, that is, for
every way the individual attach calls succeed or fail. -/
theorem handleMessage_seeds_in_role_order (s : Session) (i : InteractionCreate)
    (messageID : String) (roleIDs : List String)
    (h1 : 1 ≤ roleIDs.length) (h5 : roleIDs.length ≤ 5) :
    reactionAdds (handleMessage s i messageID roleIDs) =
        (emojis.take roleIDs.length).map (fun e => (i.ChannelID, messageID, e)) ∧
    (reactionAdds (handleMessage s i messageID roleIDs)).length = roleIDs.length ∧
    ∀ j, j < roleIDs.length →
      ∃ e, emojis[j]? = some e ∧
        (reactionAdds (handleMessage s i messageID roleIDs))[j]? =
          some (i.ChannelID, messageID, e) := by
  have hk : 0 < roleIDs.length := h1
  have key := reactionAdds_handleMessageLoop s i.ChannelID messageID roleIDs 0
  rw [List.drop_zero] at key
  have hlen : emojis.length = 5 := rfl
  refine ⟨key, ?_, ?_⟩
  · rw [handleMessage, key, List.length_map, List.length_take, hlen]
    omega
  · intro j hj
    have hj5 : j < emojis.length := by omega
    refine ⟨emojis[j], List.getElem?_eq_getElem hj5, ?_⟩
    rw [handleMessage, key, List.getElem?_map, List.getElem?_take_of_lt hj,
      List.getElem?_eq_getElem hj5]
    rfl

theorem handleMessage_seeds_in_role_order_witness :
    reactionAdds (handleMessage scenarioSession scenarioCommand "M1" ["R1", "R2"]) =
        (emojis.take 2).map (fun e => ("C1", "M1", e)) ∧
    (reactionAdds (handleMessage scenarioSession scenarioCommand "M1" ["R1", "R2"])).length
        = 2 ∧
    ∀ j, j < 2 →
      ∃ e, emojis[j]? = some e ∧
        (reactionAdds (handleMessage scenarioSession scenarioCommand "M1" ["R1", "R2"]))[j]? =
          some ("C1", "M1", e) :=
  handleMessage_seeds_in_role_order scenarioSession scenarioCommand "M1" ["R1", "R2"]
    (by decide) (by decide)


/-- Every run of the reaction handler either is stopped by a guard, with no role-add and
no fork, or passes all guards, with one role-add and a fork exactly when that call
succeeds. -/
theorem messageReactionAdd_outcome (s : Session) (m : Maps) (r : MessageReactionAdd) :
    (roleAdds (messageReactionAdd s m r).2 = [] ∧ forks (messageReactionAdd s m r).2 = []) ∨
    ∃ rs ρ g, m.messageIDToRole r.MessageID = some rs ∧
      switchEmoji r.EmojiName rs = some ρ ∧ ρ ≠ "" ∧ s.Channel r.ChannelID = .ok g ∧
      roleAdds (messageReactionAdd s m r).2 = [(g, r.UserID, ρ)] ∧
      forks (messageReactionAdd s m r).2 =
        match s.GuildMemberRoleAdd g r.UserID ρ with
        | none => [{ duration := (m.messageIDToDuration r.MessageID).getD 1, guildID := g,
                     userID := r.UserID, roleID := ρ }]
        | some _ => [] := by
  by_cases h : ∃ rs ρ g, m.messageIDToRole r.MessageID = some rs ∧
      switchEmoji r.EmojiName rs = some ρ ∧ ρ ≠ "" ∧ s.Channel r.ChannelID = .ok g
  · obtain ⟨rs, ρ, g, hreg, hsw, hρ, hch⟩ := h
    have hg := messageReactionAdd_granting s m r rs ρ g hreg hsw hρ hch
    exact Or.inr ⟨rs, ρ, g, hreg, hsw, hρ, hch, hg.1, hg.2⟩
  · refine Or.inl (messageReactionAdd_ignoring s m r ?_)
    intro rs ρ hreg hsw hρ g hch
    exact h ⟨rs, ρ, g, hreg, hsw, hρ, hch⟩

/-- The body of the expiry goroutine: one sleep, then one role-remove. -/
theorem calls_expiryTask (s : Session) (t : ExpiryTask) :
    calls (expiryTask s t) =
        [Effect.Sleep (sleepDuration t.duration),
         Effect.GuildMemberRoleRemove t.guildID t.userID t.roleID] ∧
    roleRemoves (expiryTask s t) = [(t.guildID, t.userID, t.roleID)] := by
  unfold expiryTask
  cases s.GuildMemberRoleRemove t.guildID t.userID t.roleID <;> simp [calls, roleRemoves]

/-! ## Reaction handler -/

/-- C1: on a message registered with role list `rs` (of role `ID`s, none of them the
empty string), a reaction whose emoji is the `e`-th numeric emoji (`1 ≤ e ≤ 5`) and whose
channel resolves to guild `g` makes exactly one role-add, of `rs[e-1]` to the reacting
user in `g`, when `e ≤ length rs`, and makes no role-add and forks nothing when
`e > length rs`; an emoji outside the five numeric emoji makes no role-add and forks
nothing.  By `run_role_ids_nonempty` every state built by commands whose role arguments
resolve to non-empty `ID`s stores such role lists only. -/
theorem messageReactionAdd_grants_indexed_role (s : Session) (m : Maps)
    (r : MessageReactionAdd) (rs : List String)
    (hreg : m.messageIDToRole r.MessageID = some rs)
    (hids : ∀ ρ ∈ rs, ρ ≠ "") :
    (∀ e g, 1 ≤ e → e ≤ 5 → emojis[e - 1]? = some r.EmojiName →
      s.Channel r.ChannelID = .ok g →
      (e ≤ rs.length →
        ∃ ρ, rs[e - 1]? = some ρ ∧
          roleAdds (messageReactionAdd s m r).2 = [(g, r.UserID, ρ)]) ∧
      (rs.length < e →
        roleAdds (messageReactionAdd s m r).2 = [] ∧
          forks (messageReactionAdd s m r).2 = [])) ∧
    (r.EmojiName ∉ emojis →
      roleAdds (messageReactionAdd s m r).2 = [] ∧
        forks (messageReactionAdd s m r).2 = []) := by
  constructor
  · intro e g h1 h5 hn hch
    have hsw := switchEmoji_index r.EmojiName rs e h1 h5 hn
    refine ⟨?_, ?_⟩
    · intro hle
      have hlt : e - 1 < rs.length := by omega
      have hget : rs[e - 1]? = some rs[e - 1] := List.getElem?_eq_getElem hlt
      have hρ : rs[e - 1] ≠ "" := hids _ (List.getElem_mem hlt)
      have hsw' : switchEmoji r.EmojiName rs = some rs[e - 1] := by
        rw [hsw, List.getD_eq_getElem _ _ hlt]
      exact ⟨rs[e - 1], hget,
        (messageReactionAdd_granting s m r rs rs[e - 1] g hreg hsw' hρ hch).1⟩
    · intro hlt
      apply messageReactionAdd_ignoring
      intro rs' ρ hreg' hsw' hρ
      rw [hreg] at hreg'
      cases hreg'
      rw [hsw, List.getD_eq_default _ _ (by omega)] at hsw'
      exact absurd (Option.some.inj hsw').symm hρ
  · intro hn
    apply messageReactionAdd_ignoring
    intro rs' ρ hreg' hsw' _
    rw [switchEmoji_unknown r.EmojiName rs' hn] at hsw'
    cases hsw'

theorem messageReactionAdd_grants_indexed_role_witness :
    scenarioMaps.messageIDToRole scenarioReaction.MessageID = some ["R1", "R2"] ∧
    (∀ ρ ∈ ["R1", "R2"], ρ ≠ "") ∧
    ∃ ρ, ["R1", "R2"][1 - 1]? = some ρ ∧
      roleAdds (messageReactionAdd scenarioSession scenarioMaps scenarioReaction).2 =
        [("G1", scenarioReaction.UserID, ρ)] :=
  ⟨by decide, by decide,
   ((messageReactionAdd_grants_indexed_role scenarioSession scenarioMaps scenarioReaction
      ["R1", "R2"] (by decide) (by decide)).1 1 "G1" (by decide) (by decide) (by decide)
      rfl).1 (by decide)⟩

/-- The forks of the reaction handler on a message registered with duration `d`: at most
one role-add; exactly one fork when that call succeeds and none when it fails or when no
role-add is made; the forked closure carries `d` and the guild, user and role of the
role-add, and its body is one `time.Sleep(time.Duration(d) * time.Hour)` followed by one
role-remove on that guild, user and role.  The sleep is `d` hours long up to
`d = 2562047` (`sleepDuration_exact`); beyond that the product overflows. -/
theorem messageReactionAdd_forks (s : Session) (m : Maps)
    (r : MessageReactionAdd) (d : Int)
    (hd : m.messageIDToDuration r.MessageID = some d) :
    (roleAdds (messageReactionAdd s m r).2).length ≤ 1 ∧
    (∀ g u ρ, (g, u, ρ) ∈ roleAdds (messageReactionAdd s m r).2 →
      s.GuildMemberRoleAdd g u ρ = none →
      forks (messageReactionAdd s m r).2 =
        [{ duration := d, guildID := g, userID := u, roleID := ρ }]) ∧
    (∀ g u ρ err, (g, u, ρ) ∈ roleAdds (messageReactionAdd s m r).2 →
      s.GuildMemberRoleAdd g u ρ = some err →
      forks (messageReactionAdd s m r).2 = []) ∧
    (roleAdds (messageReactionAdd s m r).2 = [] →
      forks (messageReactionAdd s m r).2 = []) ∧
    (∀ s' g u ρ,
      calls (expiryTask s' { duration := d, guildID := g, userID := u, roleID := ρ }) =
          [Effect.Sleep (sleepDuration d), Effect.GuildMemberRoleRemove g u ρ] ∧
      roleRemoves (expiryTask s' { duration := d, guildID := g, userID := u, roleID := ρ }) =
          [(g, u, ρ)]) := by
  rcases messageReactionAdd_outcome s m r with ⟨ha, hf⟩ | ⟨rs, ρ, g, _, _, _, _, ha, hf⟩
  · refine ⟨by simp [ha], ?_, ?_, fun _ => hf, fun s' g u ρ => calls_expiryTask s' _⟩
    · intro g u ρ hmem
      simp [ha] at hmem
    · intro g u ρ err hmem
      simp [ha] at hmem
  · refine ⟨by simp [ha], ?_, ?_, ?_, fun s' g u ρ => calls_expiryTask s' _⟩
    · intro g' u' ρ' hmem hok
      rw [ha, List.mem_singleton] at hmem
      cases hmem
      rw [hf, hok, hd]
      rfl
    · intro g' u' ρ' err hmem herr
      rw [ha, List.mem_singleton] at hmem
      cases hmem
      rw [hf, herr]
    · intro hnil
      rw [ha] at hnil
      cases hnil

/-- C6: a reaction event whose message id is not a key of `messageIDToRole` makes no
role-add and no other call into the client library, forks no expiry task, and leaves
the three maps as they were. -/
theorem messageReactionAdd_unregistered_ignored (s : Session) (m : Maps)
    (r : MessageReactionAdd) (h : m.messageIDToRole r.MessageID = none) :
    roleAdds (messageReactionAdd s m r).2 = [] ∧
    forks (messageReactionAdd s m r).2 = [] ∧
    calls (messageReactionAdd s m r).2 = [] ∧
    (messageReactionAdd s m r).1 = m := by
  refine ⟨?_, ?_, ?_, messageReactionAdd_maps s m r⟩ <;>
    simp [messageReactionAdd, h, roleAdds, forks, calls]

theorem messageReactionAdd_unregistered_ignored_witness :
    roleAdds (messageReactionAdd scenarioSession Maps.empty scenarioReaction).2 = [] ∧
    forks (messageReactionAdd scenarioSession Maps.empty scenarioReaction).2 = [] ∧
    calls (messageReactionAdd scenarioSession Maps.empty scenarioReaction).2 = [] ∧
    (messageReactionAdd scenarioSession Maps.empty scenarioReaction).1 = Maps.empty :=
  messageReactionAdd_unregistered_ignored scenarioSession Maps.empty scenarioReaction rfl


/-! ## Command handler: auxiliary lemmas -/

theorem mem_roleArguments (opts : List CommandOption) (ref : String) :
    ref ∈ roleArguments opts ↔ CommandOption.ApplicationCommandOptionRole ref ∈ opts := by
  induction opts with
  | nil => simp [roleArguments]
  | cons o rest ih => cases o <;> simp [roleArguments, ih]

/-- The option loop returns early exactly when some role argument does not resolve. -/
theorem scanOptions_eq_none (s : Session) (g : String) (opts : List CommandOption)
    (acc : List String) (mid : String) (d : Int) :
    scanOptions s g opts acc mid d = none ↔
      ∃ ref, ref ∈ roleArguments opts ∧ s.RoleValue ref g = none := by
  induction opts generalizing acc mid d with
  | nil => simp [scanOptions, roleArguments]
  | cons o rest ih =>
    cases o with
    | ApplicationCommandOptionRole ref =>
      cases hr : s.RoleValue ref g with
      | none =>
        simp only [scanOptions, hr, roleArguments, true_iff]
        exact ⟨ref, List.mem_cons_self _ _, hr⟩
      | some id =>
        simp only [scanOptions, hr, roleArguments, ih, List.mem_cons]
        constructor
        · rintro ⟨x, hx, hxn⟩
          exact ⟨x, Or.inr hx, hxn⟩
        · rintro ⟨x, hx | hx, hxn⟩
          · rw [hx, hr] at hxn
            cases hxn
          · exact ⟨x, hx, hxn⟩
    | ApplicationCommandOptionString v => simp only [scanOptions, roleArguments, ih]
    | ApplicationCommandOptionInteger v => simp only [scanOptions, roleArguments, ih]
    | other t => simp only [scanOptions, roleArguments, ih]

/-- The role list the option loop ends with is the initial one followed by the resolved
`ID` of every role argument, in argument order. -/
theorem scanOptions_roles (s : Session) (g : String) (opts : List CommandOption)
    (acc : List String) (mid : String) (d : Int) (rs : List String) (mid' : String) (d' : Int)
    (h : scanOptions s g opts acc mid d = some (rs, mid', d')) :
    rs.map some = acc.map some ++ (roleArguments opts).map (fun ref => s.RoleValue ref g) := by
  induction opts generalizing acc mid d with
  | nil =>
    simp only [scanOptions, Option.some.injEq, Prod.mk.injEq] at h
    simp [roleArguments, h.1]
  | cons o rest ih =>
    cases o with
    | ApplicationCommandOptionRole ref =>
      cases hr : s.RoleValue ref g with
      | none => simp [scanOptions, hr] at h
      | some id =>
        simp only [scanOptions, hr] at h
        rw [ih _ _ _ h]
        simp [roleArguments, hr]
    | ApplicationCommandOptionString v =>
      simp only [scanOptions] at h
      simpa [roleArguments] using ih _ _ _ h
    | ApplicationCommandOptionInteger v =>
      simp only [scanOptions] at h
      simpa [roleArguments] using ih _ _ _ h
    | other t =>
      simp only [scanOptions] at h
      simpa [roleArguments] using ih _ _ _ h

/-- Every role, every non-empty message id and every positive duration the option loop
ends with was paid for by an option of its own or was there at the start. -/
theorem scanOptions_count (s : Session) (g : String) (opts : List CommandOption)
    (acc : List String) (mid : String) (d : Int) (rs : List String) (mid' : String) (d' : Int)
    (h : scanOptions s g opts acc mid d = some (rs, mid', d')) :
    rs.length + (if mid' = "" then 0 else 1) + (if d' ≤ 0 then 0 else 1) ≤
      opts.length + acc.length + (if mid = "" then 0 else 1) + (if d ≤ 0 then 0 else 1) := by
  induction opts generalizing acc mid d with
  | nil =>
    simp only [scanOptions, Option.some.injEq, Prod.mk.injEq] at h
    obtain ⟨h1, h2, h3⟩ := h
    subst h1 h2 h3
    simp
  | cons o rest ih =>
    cases o with
    | ApplicationCommandOptionRole ref =>
      cases hr : s.RoleValue ref g with
      | none => simp [scanOptions, hr] at h
      | some id =>
        simp only [scanOptions, hr] at h
        have := ih _ _ _ h
        simp only [List.length_append, List.length_cons, List.length_nil] at this ⊢
        omega
    | ApplicationCommandOptionString v =>
      simp only [scanOptions] at h
      have := ih _ _ _ h
      simp only [List.length_cons] at this ⊢
      split_ifs at this ⊢ <;> omega
    | ApplicationCommandOptionInteger v =>
      simp only [scanOptions] at h
      have := ih _ _ _ h
      simp only [List.length_cons] at this ⊢
      split_ifs at this ⊢ <;> omega
    | other t =>
      simp only [scanOptions] at h
      have := ih _ _ _ h
      simp only [List.length_cons] at this ⊢
      omega

theorem responses_handleMessageLoop (s : Session) (c m : String) (rs : List String) (k : Nat) :
    responses (handleMessageLoop s c m k rs) = [] := by
  induction rs generalizing k with
  | nil => simp [handleMessageLoop, responses]
  | cons r rest ih =>
    have ih' := ih (k + 1)
    unfold responses at ih' ⊢
    rw [handleMessageLoop, List.filterMap_append, ih']
    by_cases h : k < emojis.length
    · rw [dif_pos h]
      cases s.MessageReactionAdd c m emojis[k] <;> simp
    · rw [dif_neg h]
      simp

/-- The result of the command handler once every check has passed. -/
theorem handleTempRolesCommand_accepting (s : Session) (m : Maps) (i : InteractionCreate)
    (rs : List String) (mid : String) (d : Int) (content : String)
    (hlen : 3 ≤ i.Options.length)
    (hscan : scanOptions s i.GuildID i.Options [] "" 0 = some (rs, mid, d))
    (hmid : mid ≠ "") (hd : 0 < d)
    (hfetch : s.ChannelMessage i.ChannelID mid = .ok content) :
    handleTempRolesCommand s m i =
      ({ messageIDToRole := mapSet m.messageIDToRole mid rs
         messageIDToContent := mapSet m.messageIDToContent mid content
         messageIDToDuration := mapSet m.messageIDToDuration mid d },
       handleMessage s i mid rs ++ [Effect.InteractionRespond confirmationText]) := by
  have hlen' : ¬ i.Options.length < 3 := by omega
  have hguard : ¬ (mid = "" ∨ d ≤ 0) := by
    rintro (h | h)
    · exact hmid h
    · omega
  simp only [handleTempRolesCommand, hlen', hscan, hguard, hfetch, if_false, confirmationText]

/-- The command handler either returns early, with the maps as they were and one of the
error texts as its only response, or passes every check and writes one registration. -/
theorem handleTempRolesCommand_outcome (s : Session) (m : Maps) (i : InteractionCreate) :
    ((handleTempRolesCommand s m i).1 = m ∧
      ∃ txt, txt ∈ errorTexts ∧ responses (handleTempRolesCommand s m i).2 = [txt]) ∨
    ∃ rs mid d content, 3 ≤ i.Options.length ∧
      scanOptions s i.GuildID i.Options [] "" 0 = some (rs, mid, d) ∧
      mid ≠ "" ∧ 0 < d ∧ s.ChannelMessage i.ChannelID mid = .ok content ∧
      handleTempRolesCommand s m i =
        ({ messageIDToRole := mapSet m.messageIDToRole mid rs
           messageIDToContent := mapSet m.messageIDToContent mid content
           messageIDToDuration := mapSet m.messageIDToDuration mid d },
         handleMessage s i mid rs ++ [Effect.InteractionRespond confirmationText]) := by
  by_cases hlen : i.Options.length < 3
  · left
    simp [handleTempRolesCommand, hlen, responses, errorTexts]
  · cases hscan : scanOptions s i.GuildID i.Options [] "" 0 with
    | none =>
      left
      simp [handleTempRolesCommand, hlen, hscan, responses, errorTexts]
    | some p =>
      obtain ⟨rs, mid, d⟩ := p
      by_cases hguard : mid = "" ∨ d ≤ 0
      · left
        simp [handleTempRolesCommand, hlen, hscan, hguard, responses, errorTexts]
      · cases hfetch : s.ChannelMessage i.ChannelID mid with
        | error err =>
          left
          simp [handleTempRolesCommand, hlen, hscan, hguard, hfetch, responses, errorTexts]
        | ok content =>
          right
          have hmid : mid ≠ "" := fun h => hguard (Or.inl h)
          have hd : 0 < d := by
            by_contra hd
            exact hguard (Or.inr (by omega))
          exact ⟨rs, mid, d, content, by omega, rfl, hmid, hd, hfetch,
            handleTempRolesCommand_accepting s m i rs mid d content (by omega) hscan hmid hd
              hfetch⟩


theorem responses_accepting (s : Session) (i : InteractionCreate) (mid : String)
    (rs : List String) :
    responses (handleMessage s i mid rs ++ [Effect.InteractionRespond confirmationText]) =
      [confirmationText] := by
  have h := responses_handleMessageLoop s i.ChannelID mid rs 0
  unfold responses at h ⊢
  rw [handleMessage, List.filterMap_append, h]
  rfl

theorem reactAll_eq (m : Maps) (later : List (Session × MessageReactionAdd)) :
    reactAll m later = m := by
  induction later generalizing m with
  | nil => rfl
  | cons x rest ih =>
    show reactAll (messageReactionAdd x.1 m x.2).1 rest = m
    rw [ih, messageReactionAdd_maps]

/-- Every role-add of the reaction handler is for the role stored at the index of the
reaction's emoji. -/
theorem roleAdds_indexed (s : Session) (m : Maps) (r : MessageReactionAdd)
    (rs : List String) (hreg : m.messageIDToRole r.MessageID = some rs)
    (g u ρ : String) (hmem : (g, u, ρ) ∈ roleAdds (messageReactionAdd s m r).2) :
    ∃ e, 1 ≤ e ∧ e ≤ 5 ∧ emojis[e - 1]? = some r.EmojiName ∧ rs[e - 1]? = some ρ := by
  rcases messageReactionAdd_outcome s m r with ⟨ha, _⟩ | ⟨rs', ρ', g', hreg', hsw, hρ, _, ha, _⟩
  · rw [ha] at hmem
    cases hmem
  · rw [ha, List.mem_singleton] at hmem
    cases hmem
    rw [hreg] at hreg'
    cases hreg'
    obtain ⟨e, h1, h5, hn, hget⟩ := switchEmoji_some r.EmojiName rs ρ hsw
    refine ⟨e, h1, h5, hn, ?_⟩
    by_cases hlt : e - 1 < rs.length
    · rw [List.getD_eq_getElem _ _ hlt] at hget
      rw [List.getElem?_eq_getElem hlt, hget]
    · rw [List.getD_eq_default _ _ (by omega)] at hget
      exact absurd hget hρ

/-! ## Command handler -/

/-- C4: when the invocation has fewer than 3 arguments, or a role argument that does not
resolve, or its parsed message id is empty, or its parsed duration is `≤ 0`, or the
message fetch fails, or in any other case in which the handler responds with one of its
error texts, the three maps after `handleTempRolesCommand` are the maps before it, and
the only response is an error text. -/
theorem handleTempRolesCommand_rejection_keeps_maps (s : Session) (m : Maps)
    (i : InteractionCreate)
    (h : i.Options.length < 3 ∨
      (∃ ref, CommandOption.ApplicationCommandOptionRole ref ∈ i.Options ∧
        s.RoleValue ref i.GuildID = none) ∨
      (∃ rs mid d, scanOptions s i.GuildID i.Options [] "" 0 = some (rs, mid, d) ∧
        (mid = "" ∨ d ≤ 0 ∨ ∃ err, s.ChannelMessage i.ChannelID mid = .error err)) ∨
      (∃ txt, txt ∈ errorTexts ∧ txt ∈ responses (handleTempRolesCommand s m i).2)) :
    (handleTempRolesCommand s m i).1.messageIDToRole = m.messageIDToRole ∧
    (handleTempRolesCommand s m i).1.messageIDToContent = m.messageIDToContent ∧
    (handleTempRolesCommand s m i).1.messageIDToDuration = m.messageIDToDuration ∧
    ∃ txt, txt ∈ errorTexts ∧ responses (handleTempRolesCommand s m i).2 = [txt] := by
  rcases handleTempRolesCommand_outcome s m i with
    ⟨hm, hr⟩ | ⟨rs, mid, d, content, hlen, hscan, hmid, hd, hfetch, heq⟩
  · rw [hm]
    exact ⟨rfl, rfl, rfl, hr⟩
  · exfalso
    rcases h with h | ⟨ref, hmem, hnone⟩ | ⟨rs', mid', d', hscan', hbad⟩ | ⟨txt, htxt, hmem⟩
    · omega
    · have : scanOptions s i.GuildID i.Options [] "" 0 = none :=
        (scanOptions_eq_none s i.GuildID i.Options [] "" 0).2
          ⟨ref, (mem_roleArguments _ _).2 hmem, hnone⟩
      rw [this] at hscan
      cases hscan
    · rw [hscan] at hscan'
      cases hscan'
      rcases hbad with hbad | hbad | ⟨err, hbad⟩
      · exact hmid hbad
      · omega
      · rw [hfetch] at hbad
        cases hbad
    · rw [heq, responses_accepting, List.mem_singleton] at hmem
      subst hmem
      revert htxt
      decide

theorem handleTempRolesCommand_rejection_keeps_maps_witness :
    shortCommand.Options.length < 3 ∧
    (handleTempRolesCommand scenarioSession scenarioMaps shortCommand).1.messageIDToRole =
      scenarioMaps.messageIDToRole ∧
    (handleTempRolesCommand scenarioSession scenarioMaps shortCommand).1.messageIDToContent =
      scenarioMaps.messageIDToContent ∧
    (handleTempRolesCommand scenarioSession scenarioMaps shortCommand).1.messageIDToDuration =
      scenarioMaps.messageIDToDuration ∧
    ∃ txt, txt ∈ errorTexts ∧
      responses (handleTempRolesCommand scenarioSession scenarioMaps shortCommand).2 = [txt] :=
  ⟨by decide,
   handleTempRolesCommand_rejection_keeps_maps scenarioSession scenarioMaps shortCommand
     (Or.inl (by decide))⟩

/-- C5: when a command for an already registered message id passes every check with
role list `rsNew` and duration `dNew`, looking the message id up afterwards yields
exactly `rsNew` and `dNew`, and every role-add made by a later reaction to that message
(after any number of other reaction events) is for the role of `rsNew` at the index of
the reaction's emoji, hence never for a role that occurs only in the old list. -/
theorem reregistration_overwrites (s : Session) (m : Maps) (i : InteractionCreate)
    (rsOld rsNew : List String) (mid : String) (dNew : Int) (content : String)
    (hold : m.messageIDToRole mid = some rsOld)
    (hlen : 3 ≤ i.Options.length)
    (hscan : scanOptions s i.GuildID i.Options [] "" 0 = some (rsNew, mid, dNew))
    (hmid : mid ≠ "") (hd : 0 < dNew)
    (hfetch : s.ChannelMessage i.ChannelID mid = .ok content) :
    (handleTempRolesCommand s m i).1.messageIDToRole mid = some rsNew ∧
    (handleTempRolesCommand s m i).1.messageIDToDuration mid = some dNew ∧
    ∀ (later : List (Session × MessageReactionAdd)) (s' : Session) (r : MessageReactionAdd),
      r.MessageID = mid →
      ∀ g u ρ,
        (g, u, ρ) ∈ roleAdds
          (messageReactionAdd s' (reactAll (handleTempRolesCommand s m i).1 later) r).2 →
        (∃ e, 1 ≤ e ∧ e ≤ 5 ∧ emojis[e - 1]? = some r.EmojiName ∧ rsNew[e - 1]? = some ρ) ∧
        ρ ∈ rsNew ∧ ¬ (ρ ∈ rsOld ∧ ρ ∉ rsNew) := by
  have _ := hold
  have heq := handleTempRolesCommand_accepting s m i rsNew mid dNew content hlen hscan hmid hd
    hfetch
  have hrole : (handleTempRolesCommand s m i).1.messageIDToRole mid = some rsNew := by
    rw [heq]
    simp [mapSet]
  refine ⟨hrole, by rw [heq]; simp [mapSet], ?_⟩
  intro later s' r hr g u ρ hmem
  rw [reactAll_eq] at hmem
  subst hr
  obtain ⟨e, h1, h5, hn, hget⟩ := roleAdds_indexed s' _ r rsNew hrole g u ρ hmem
  have hin : ρ ∈ rsNew := List.getElem?_mem hget
  exact ⟨⟨e, h1, h5, hn, hget⟩, hin, fun h => h.2 hin⟩

theorem reregistration_overwrites_witness :
    scenarioMaps.messageIDToRole "M1" = some ["R1", "R2"] ∧
    (handleTempRolesCommand scenarioSession scenarioMaps secondCommand).1.messageIDToRole "M1" =
      some ["R3"] ∧
    (handleTempRolesCommand scenarioSession scenarioMaps secondCommand).1.messageIDToDuration
      "M1" = some 7 ∧
    roleAdds (messageReactionAdd scenarioSession
      (reactAll (handleTempRolesCommand scenarioSession scenarioMaps secondCommand).1 [])
      scenarioReaction).2 = [("G1", "U1", "R3")] ∧
    "R3" ∈ ["R3"] ∧ ¬ ("R3" ∈ ["R1", "R2"] ∧ "R3" ∉ ["R3"]) :=
  ⟨by decide,
   (reregistration_overwrites scenarioSession scenarioMaps secondCommand ["R1", "R2"] ["R3"]
      "M1" 7 "hello" (by decide) (by decide) (by decide) (by decide) (by decide) rfl).1,
   (reregistration_overwrites scenarioSession scenarioMaps secondCommand ["R1", "R2"] ["R3"]
      "M1" 7 "hello" (by decide) (by decide) (by decide) (by decide) (by decide) rfl).2.1,
   by decide,
   ((reregistration_overwrites scenarioSession scenarioMaps secondCommand ["R1", "R2"] ["R3"]
      "M1" 7 "hello" (by decide) (by decide) (by decide) (by decide) (by decide) rfl).2.2
      [] scenarioSession scenarioReaction rfl "G1" "U1" "R3" (by decide)).2⟩

/-- A command with at most seven options keeps every stored role list within five
entries: a registration needs one option for its message id and one for its duration. -/
theorem handleTempRolesCommand_keeps_five (s : Session) (m : Maps) (i : InteractionCreate)
    (hopts : i.Options.length ≤ 7)
    (hm : ∀ k rs, m.messageIDToRole k = some rs → rs.length ≤ 5) :
    ∀ k rs, (handleTempRolesCommand s m i).1.messageIDToRole k = some rs → rs.length ≤ 5 := by
  rcases handleTempRolesCommand_outcome s m i with
    ⟨hsame, _⟩ | ⟨rs, mid, d, content, _, hscan, hmid, hd, _, heq⟩
  · rw [hsame]
    exact hm
  · intro k rs' hk
    rw [heq] at hk
    simp only [mapSet] at hk
    by_cases hkm : k = mid
    · rw [if_pos hkm] at hk
      rw [← Option.some.inj hk]
      have hcount := scanOptions_count s i.GuildID i.Options [] "" 0 rs mid d hscan
      have hd' : ¬ d ≤ 0 := by omega
      simp only [hmid, hd', if_false, if_true, List.length_nil, le_refl] at hcount
      omega
    · rw [if_neg hkm] at hk
      exact hm k rs' hk

theorem foldl_commands_keeps_five (cmds : List (Session × InteractionCreate)) (m : Maps)
    (hopts : ∀ c ∈ cmds, c.2.Options.length ≤ 7)
    (hm : ∀ k rs, m.messageIDToRole k = some rs → rs.length ≤ 5) :
    ∀ k rs,
      (cmds.foldl (fun m c => (handleTempRolesCommand c.1 m c.2).1) m).messageIDToRole k
        = some rs → rs.length ≤ 5 := by
  induction cmds generalizing m with
  | nil => exact hm
  | cons c rest ih =>
    rw [List.foldl_cons]
    apply ih
    · intro c' hc'
      exact hopts c' (List.mem_cons_of_mem _ hc')
    · exact handleTempRolesCommand_keeps_five c.1 m c.2 (hopts c (List.mem_cons_self _ _)) hm

/-- C7: after any sequence of `handleTempRolesCommand` calls from the empty maps, each
with at most 7 options, every role list stored in `messageIDToRole` has length `≤ 5`. -/
theorem runCommands_role_lists_at_most_five (cmds : List (Session × InteractionCreate))
    (hopts : ∀ c ∈ cmds, c.2.Options.length ≤ 7) (k : String) (rs : List String)
    (hk : (runCommands cmds).messageIDToRole k = some rs) : rs.length ≤ 5 :=
  foldl_commands_keeps_five cmds Maps.empty hopts (fun _ _ h => by cases h) k rs hk

theorem runCommands_role_lists_at_most_five_witness :
    (runCommands [(scenarioSession, scenarioCommand), (scenarioSession, fullCommand)]).messageIDToRole
        "M1" = some ["R1", "R2", "R3", "R4", "R5"] ∧
    ["R1", "R2", "R3", "R4", "R5"].length ≤ 5 :=
  ⟨by decide,
   runCommands_role_lists_at_most_five
     [(scenarioSession, scenarioCommand), (scenarioSession, fullCommand)]
     (by
       intro c hc
       simp only [List.mem_cons, List.mem_singleton, List.not_mem_nil, or_false] at hc
       rcases hc with hc | hc <;> subst hc <;> decide)
     "M1" ["R1", "R2", "R3", "R4", "R5"] (by decide)⟩

/-- C8 as stated fails: the invocation `rolelessCommand` has 3 options, none of them a
role, and the handler answers it with the confirmation and stores the empty role list
for `M1`. -/
theorem rolelessCommand_is_registered :
    3 ≤ rolelessCommand.Options.length ∧
    roleArguments rolelessCommand.Options = [] ∧
    responses (handleTempRolesCommand scenarioSession Maps.empty rolelessCommand).2 =
      [confirmationText] ∧
    (handleTempRolesCommand scenarioSession Maps.empty rolelessCommand).1.messageIDToRole "M1" =
      some [] := by
  decide

/-- C8 (amended): the handler does not check the number of roles; a command that passes
every check (at least 3 options, every role argument resolves, non-empty message id,
positive duration, message fetched) stores under its message id exactly the resolved
`ID`s of its role arguments, in argument order, so the stored list has one entry per
role argument and is empty exactly when the invocation has no role argument. -/
theorem accepted_command_stores_role_arguments (s : Session) (m : Maps)
    (i : InteractionCreate) (rs : List String) (mid : String) (d : Int) (content : String)
    (hlen : 3 ≤ i.Options.length)
    (hscan : scanOptions s i.GuildID i.Options [] "" 0 = some (rs, mid, d))
    (hmid : mid ≠ "") (hd : 0 < d)
    (hfetch : s.ChannelMessage i.ChannelID mid = .ok content) :
    responses (handleTempRolesCommand s m i).2 = [confirmationText] ∧
    (handleTempRolesCommand s m i).1.messageIDToRole mid = some rs ∧
    rs.map some = (roleArguments i.Options).map (fun ref => s.RoleValue ref i.GuildID) ∧
    rs.length = (roleArguments i.Options).length ∧
    (rs = [] ↔ roleArguments i.Options = []) := by
  have heq := handleTempRolesCommand_accepting s m i rs mid d content hlen hscan hmid hd hfetch
  have hroles := scanOptions_roles s i.GuildID i.Options [] "" 0 rs mid d hscan
  simp only [List.map_nil, List.nil_append] at hroles
  have hlen' : rs.length = (roleArguments i.Options).length := by
    have := congrArg List.length hroles
    simpa using this
  refine ⟨by rw [heq, responses_accepting], by rw [heq]; simp [mapSet], hroles, hlen', ?_⟩
  rw [← List.length_eq_zero, hlen', List.length_eq_zero]

theorem accepted_command_stores_role_arguments_witness :
    (handleTempRolesCommand scenarioSession Maps.empty fullCommand).1.messageIDToRole "M1" =
      some ["R1", "R2", "R3", "R4", "R5"] ∧
    ["R1", "R2", "R3", "R4", "R5"].length = (roleArguments fullCommand.Options).length :=
  ⟨(accepted_command_stores_role_arguments scenarioSession Maps.empty fullCommand
      ["R1", "R2", "R3", "R4", "R5"] "M1" 2 "hello" (by decide) (by decide) (by decide)
      (by decide) rfl).2.1,
   (accepted_command_stores_role_arguments scenarioSession Maps.empty fullCommand
      ["R1", "R2", "R3", "R4", "R5"] "M1" 2 "hello" (by decide) (by decide) (by decide)
      (by decide) rfl).2.2.2.1⟩

/-! ## Expiry task -/

/-- Up to 2562047 hours the sleep interval is the exact number of nanoseconds. -/
theorem sleepDuration_exact (d : Int) (h0 : 0 < d) (h : d ≤ 2562047) :
    sleepDuration d = d * 3600000000000 ∧ 0 < sleepDuration d := by
  have hH : Hour = 3600000000000 := by decide
  have h1 : int64 d = d := by
    unfold int64
    omega
  have h2 : int64 (d * 3600000000000) = d * 3600000000000 := by
    unfold int64
    omega
  rw [sleepDuration, h1, hH, h2]
  omega

/-- C9 fails on the code: the command with duration 2562048 is accepted and stored; the
task forked for a grant on that registration calls `time.Sleep` with
`time.Duration(2562048) * time.Hour`, which in 64-bit arithmetic is the negative number
`-9223371273709551616`, not `2562048 * 3600000000000`; the sleep returns at once and
the role-remove follows with no delay. -/
theorem long_duration_sleep_overflows :
    longMaps.messageIDToDuration "M1" = some 2562048 ∧
    forks (messageReactionAdd scenarioSession longMaps scenarioReaction).2 =
      [{ duration := 2562048, guildID := "G1", userID := "U1", roleID := "R1" }] ∧
    calls (expiryTask scenarioSession
        { duration := 2562048, guildID := "G1", userID := "U1", roleID := "R1" }) =
      [Effect.Sleep (-9223371273709551616), Effect.GuildMemberRoleRemove "G1" "U1" "R1"] ∧
    sleepDuration 2562048 ≠ 2562048 * 3600000000000 ∧
    sleepDuration 2562048 < 0 ∧
    sleepTime (sleepDuration 2562048) = 0 := by
  decide


/-- C2 fails on the code, by the overflow of C9: on the message registered with duration
2562048, the reaction makes one successful role-add and forks one expiry task, but that
task does not sleep for the registered 2562048 hours: its `time.Sleep` argument is
negative, the sleep lasts no time at all, and the one role-remove for the same guild,
user and role follows the role-add at once. -/
theorem long_duration_expiry_removes_at_once :
    longMaps.messageIDToDuration scenarioReaction.MessageID = some 2562048 ∧
    roleAdds (messageReactionAdd scenarioSession longMaps scenarioReaction).2 =
      [("G1", "U1", "R1")] ∧
    scenarioSession.GuildMemberRoleAdd "G1" "U1" "R1" = none ∧
    forks (messageReactionAdd scenarioSession longMaps scenarioReaction).2 =
      [{ duration := 2562048, guildID := "G1", userID := "U1", roleID := "R1" }] ∧
    calls (expiryTask scenarioSession
        { duration := 2562048, guildID := "G1", userID := "U1", roleID := "R1" }) =
      [Effect.Sleep (sleepDuration 2562048), Effect.GuildMemberRoleRemove "G1" "U1" "R1"] ∧
    sleepTime (sleepDuration 2562048) = 0 ∧
    sleepTime (sleepDuration 2562048) < 2562048 * Hour := by
  decide

/-! ## Reachable states -/

theorem consistent_empty : Consistent Maps.empty :=
  ⟨fun _ => ⟨rfl, rfl⟩, fun _ _ h => by cases h⟩

theorem consistent_handleTempRolesCommand (s : Session) (m : Maps) (i : InteractionCreate)
    (hm : Consistent m) : Consistent (handleTempRolesCommand s m i).1 := by
  rcases handleTempRolesCommand_outcome s m i with
    ⟨hsame, _⟩ | ⟨rs, mid, d, content, _, _, _, hd, _, heq⟩
  · rw [hsame]
    exact hm
  · rw [heq]
    refine ⟨fun k => ?_, fun k d' hk => ?_⟩
    · by_cases hk : k = mid
      · simp [mapSet, hk]
      · simpa [mapSet, hk] using hm.1 k
    · simp only [mapSet] at hk
      by_cases hkm : k = mid
      · rw [if_pos hkm] at hk
        rw [← Option.some.inj hk]
        exact hd
      · rw [if_neg hkm] at hk
        exact hm.2 k d' hk

theorem consistent_step (m : Maps) (ev : Event) (hm : Consistent m) : Consistent (step m ev) := by
  cases ev with
  | command s i => exact consistent_handleTempRolesCommand s m i hm
  | reaction s r =>
    show Consistent (messageReactionAdd s m r).1
    rw [messageReactionAdd_maps]
    exact hm

theorem consistent_foldl (evs : List Event) (m : Maps) (hm : Consistent m) :
    Consistent (evs.foldl step m) := by
  induction evs generalizing m with
  | nil => exact hm
  | cons ev rest ih => exact ih (step m ev) (consistent_step m ev hm)

/-- When the message's duration is stored whenever its role list is, the reaction handler
does not take its default-duration branch, and a forked task carries the stored
duration. -/
theorem messageReactionAdd_uses_stored_duration (s : Session) (m : Maps)
    (r : MessageReactionAdd)
    (hdur : ∀ rs, m.messageIDToRole r.MessageID = some rs →
      ∃ d, m.messageIDToDuration r.MessageID = some d) :
    Effect.Println ["Duration not found for message ID:", r.MessageID] ∉
      (messageReactionAdd s m r).2 ∧
    ∀ t, t ∈ forks (messageReactionAdd s m r).2 →
      m.messageIDToDuration r.MessageID = some t.duration := by
  constructor
  · cases hreg : m.messageIDToRole r.MessageID with
    | none => simp [messageReactionAdd, hreg]
    | some rs =>
      obtain ⟨d, hd⟩ := hdur rs hreg
      cases hsw : switchEmoji r.EmojiName rs with
      | none => simp [messageReactionAdd, hreg, hd, hsw]
      | some ρ =>
        by_cases hρ : ρ = ""
        · simp [messageReactionAdd, hreg, hd, hsw, hρ]
        · cases hch : s.Channel r.ChannelID with
          | error err => simp [messageReactionAdd, hreg, hd, hsw, hρ, hch]
          | ok g =>
            cases ha : s.GuildMemberRoleAdd g r.UserID ρ <;>
              simp [messageReactionAdd, hreg, hd, hsw, hρ, hch, ha]
  · intro t ht
    rcases messageReactionAdd_outcome s m r with ⟨_, hf⟩ | ⟨rs, ρ, g, hreg, _, _, _, _, hf⟩
    · rw [hf] at ht
      cases ht
    · obtain ⟨d, hd⟩ := hdur rs hreg
      rw [hf] at ht
      cases ha : s.GuildMemberRoleAdd g r.UserID ρ with
      | none =>
        rw [ha] at ht
        simp only [List.mem_singleton] at ht
        rw [ht, hd]
        rfl
      | some err =>
        rw [ha] at ht
        cases ht

/-- C10: in every state reached from the empty maps by a sequence of
`handleTempRolesCommand` and `messageReactionAdd` calls, the three maps have the same
keys and every stored duration is positive; so in that state `messageReactionAdd` never
prints its `Duration not found` line (the default of 1 hour is not taken) and every
task it forks carries the duration stored for the message. -/
theorem run_maps_consistent (evs : List Event) :
    (∀ k, ((run evs).messageIDToRole k).isSome = ((run evs).messageIDToContent k).isSome ∧
          ((run evs).messageIDToRole k).isSome = ((run evs).messageIDToDuration k).isSome) ∧
    (∀ k d, (run evs).messageIDToDuration k = some d → 0 < d) ∧
    (∀ (s : Session) (r : MessageReactionAdd),
      Effect.Println ["Duration not found for message ID:", r.MessageID] ∉
        (messageReactionAdd s (run evs) r).2) ∧
    (∀ (s : Session) (r : MessageReactionAdd) (t : ExpiryTask),
      t ∈ forks (messageReactionAdd s (run evs) r).2 →
      (run evs).messageIDToDuration r.MessageID = some t.duration ∧ 0 < t.duration) := by
  have hc : Consistent (run evs) := consistent_foldl evs Maps.empty consistent_empty
  have hdur : ∀ (r : MessageReactionAdd) rs, (run evs).messageIDToRole r.MessageID = some rs →
      ∃ d, (run evs).messageIDToDuration r.MessageID = some d := by
    intro r rs hreg
    have h := (hc.1 r.MessageID).2
    rw [hreg] at h
    exact Option.isSome_iff_exists.1 h.symm
  refine ⟨hc.1, hc.2, fun s r => ?_, fun s r t ht => ?_⟩
  · exact (messageReactionAdd_uses_stored_duration s (run evs) r (hdur r)).1
  · have h := (messageReactionAdd_uses_stored_duration s (run evs) r (hdur r)).2 t ht
    exact ⟨h, hc.2 _ _ h⟩


/-- A command none of whose role arguments resolves to an empty `ID` keeps every stored
role list free of the empty string. -/
theorem handleTempRolesCommand_keeps_ids (s : Session) (m : Maps) (i : InteractionCreate)
    (hev : (Event.command s i).roleIDsNonEmpty)
    (hm : ∀ k rs, m.messageIDToRole k = some rs → ∀ ρ ∈ rs, ρ ≠ "") :
    ∀ k rs, (handleTempRolesCommand s m i).1.messageIDToRole k = some rs →
      ∀ ρ ∈ rs, ρ ≠ "" := by
  rcases handleTempRolesCommand_outcome s m i with
    ⟨hsame, _⟩ | ⟨rs, mid, d, content, _, hscan, _, _, _, heq⟩
  · rw [hsame]
    exact hm
  · intro k rs' hk ρ hρ
    rw [heq] at hk
    simp only [mapSet] at hk
    by_cases hkm : k = mid
    · rw [if_pos hkm] at hk
      rw [← Option.some.inj hk] at hρ
      have hroles := scanOptions_roles s i.GuildID i.Options [] "" 0 rs mid d hscan
      simp only [List.map_nil, List.nil_append] at hroles
      have hmem : some ρ ∈ rs.map some := List.mem_map_of_mem _ hρ
      rw [hroles, List.mem_map] at hmem
      obtain ⟨ref, href, hres⟩ := hmem
      intro hempty
      rw [hempty] at hres
      exact hev ref href hres
    · rw [if_neg hkm] at hk
      exact hm k rs' hk ρ hρ

/-- In every state built from the empty maps by events that store no empty role `ID`,
no stored role list contains the empty string. -/
theorem run_role_ids_nonempty (evs : List Event) (hevs : ∀ ev ∈ evs, ev.roleIDsNonEmpty) :
    ∀ k rs, (run evs).messageIDToRole k = some rs → ∀ ρ ∈ rs, ρ ≠ "" := by
  have key : ∀ (l : List Event) (m : Maps), (∀ ev ∈ l, ev.roleIDsNonEmpty) →
      (∀ k rs, m.messageIDToRole k = some rs → ∀ ρ ∈ rs, ρ ≠ "") →
      ∀ k rs, (l.foldl step m).messageIDToRole k = some rs → ∀ ρ ∈ rs, ρ ≠ "" := by
    intro l
    induction l with
    | nil => exact fun m _ hm => hm
    | cons ev rest ih =>
      intro m hl hm
      rw [List.foldl_cons]
      apply ih
      · exact fun ev' hev' => hl ev' (List.mem_cons_of_mem _ hev')
      · cases ev with
        | command s i =>
          exact handleTempRolesCommand_keeps_ids s m i (hl _ (List.mem_cons_self _ _)) hm
        | reaction s r =>
          show ∀ k rs, (messageReactionAdd s m r).1.messageIDToRole k = some rs → _
          rw [messageReactionAdd_maps]
          exact hm
  exact key evs Maps.empty hevs (fun _ _ h => by cases h)

end TempRoles
